import Mathlib

/-!
Shallow embedding of the PhysioLearn training/logging/results subsystem
(`physlearn/apis/training/logging.py`, `results.py`, `metrics.py`,
`physlearn/apis/loss.py`, `physlearn/names.py`) together with proofs of the
specified properties.

Python dictionaries are embedded as association lists with Python's
insert-or-overwrite semantics (`pyInsert`, `pyDict`); Python exceptions are
embedded as `Except PyError`; `float` scalars are embedded as `Rat`; tensors
are embedded as lists of rationals (their contents are opaque to this core).
Stateful methods become functions `Logger → Logger × Except PyError α`
returning the post-call state (unchanged when the Python code raises before
mutating).
-/

/-- Kinds of Python exceptions raised by the embedded code. -/
inductive PyError
  | valueError            -- configuration error from start_epoch
  | runtimeError          -- invalid-state error from finish_epoch
  | keyError              -- dict lookup failure
  | indexError            -- missing-dependency error from EpochMetric.__call__
  | notImplementedError   -- base-class _save_output
deriving DecidableEq, Repr

/-! ### Python dict embedding -/

/-- Dict lookup (`d[k]` as an `Option`). -/
def lookupA {κ α : Type} [DecidableEq κ] : List (κ × α) → κ → Option α
  | [], _ => none
  | p :: t, k => if p.1 = k then some p.2 else lookupA t k

/-- `k in d` for a Python dict. -/
def containsKey {κ α : Type} [DecidableEq κ] (d : List (κ × α)) (k : κ) : Bool :=
  (lookupA d k).isSome

/-- `d[k] = v` on a Python dict: overwrite in place when the key is present,
append otherwise. -/
def pyInsert {κ α : Type} [DecidableEq κ] (d : List (κ × α)) (k : κ) (v : α) :
    List (κ × α) :=
  if containsKey d k then d.map (fun p => if p.1 = k then (k, v) else p)
  else d ++ [(k, v)]

/-- A Python dict built from a list of key-value pairs (dict comprehension
semantics: later values overwrite, first-occurrence position kept). -/
def pyDict {κ α : Type} [DecidableEq κ] (l : List (κ × α)) : List (κ × α) :=
  l.foldl (fun d p => pyInsert d p.1 p.2) []

/-- `d[k].append(v)` on a Python dict of lists (no-op keys are untouched). -/
def appendAt {κ α : Type} [DecidableEq κ] (d : List (κ × List α)) (k : κ) (v : α) :
    List (κ × List α) :=
  d.map fun p => if p.1 = k then (p.1, p.2 ++ [v]) else p

/-- Lookup in a two-level Python dict (`d[k1][k2]`). -/
def lookup2 {κ₁ κ₂ α : Type} [DecidableEq κ₁] [DecidableEq κ₂]
    (d : List (κ₁ × List (κ₂ × α))) (k₁ : κ₁) (k₂ : κ₂) : Option α :=
  (lookupA d k₁).bind fun inner => lookupA inner k₂

/-! ### Enumerations from `physlearn/names.py` -/

/-- `ModelDataType` members. -/
inductive ModelDataType | FEATURES
deriving DecidableEq, Repr

/-- String values of `ModelDataType` members. -/
def ModelDataType.value : ModelDataType → String
  | .FEATURES => "features"

/-- `SignalType` members. -/
inductive SignalType | ECG | EEG | RRIntervals | FAKE | Unknown | SPO2 | HR
deriving DecidableEq, Repr

/-- String values of `SignalType` members. -/
def SignalType.value : SignalType → String
  | .ECG => "ecg"
  | .EEG => "eeg"
  | .RRIntervals => "rri"
  | .FAKE => "fake signal"
  | .Unknown => "unknown"
  | .SPO2 => "spo2"
  | .HR => "hr"

/-- `NonSignalDataType` members. -/
inductive NonSignalDataType
  | HOSPITAL_NAME | AGE | GENDER | FAKE | RECORD_SAMPLING_FREQUENCY
  | RECORD_FREQUENCY | CHANNEL_FREQUENCY | SIGNAL_NAME | NON_SIGNAL_DATA
  | PATIENT_IDS | PATIENT_ID | RECORD_ID | RECORDS_PER_PATIENT | SIGNAL_TYPES
  | TOTAL_NUMBER_OF_SEIZURES | DATABASE_VERSION | DATABASE_PROPERTIES
  | NUM_RECORDS | NUM_PATIENTS | DATABASE_NAME | START_DATE | START_TIME
  | END_DATE | END_TIME | SIGNAL_DURATION_SEC | TIME_AXIS | RECORD_IDS
  | SIGNAL_LEN | SAMPLE_IDX
deriving DecidableEq, Repr

/-- String values of `NonSignalDataType` members. -/
def NonSignalDataType.value : NonSignalDataType → String
  | .HOSPITAL_NAME => "hospital_name"
  | .AGE => "age"
  | .GENDER => "gender"
  | .FAKE => "fake data type"
  | .RECORD_SAMPLING_FREQUENCY => "record_sampling_frequency"
  | .RECORD_FREQUENCY => "record_frequency"
  | .CHANNEL_FREQUENCY => "channel_frequency"
  | .SIGNAL_NAME => "signal_name"
  | .NON_SIGNAL_DATA => "non_signal_data"
  | .PATIENT_IDS => "patient_ids"
  | .PATIENT_ID => "patient_id"
  | .RECORD_ID => "record_id"
  | .RECORDS_PER_PATIENT => "records_per_patient"
  | .SIGNAL_TYPES => "signal_types"
  | .TOTAL_NUMBER_OF_SEIZURES => "total_number_of_seizures"
  | .DATABASE_VERSION => "database_version"
  | .DATABASE_PROPERTIES => "database_properties"
  | .NUM_RECORDS => "num_records"
  | .NUM_PATIENTS => "num_patients"
  | .DATABASE_NAME => "database_name"
  | .START_DATE => "start_date"
  | .START_TIME => "start_time"
  | .END_DATE => "end_date"
  | .END_TIME => "end_time"
  | .SIGNAL_DURATION_SEC => "signal_duration_sec"
  | .TIME_AXIS => "time_axis"
  | .RECORD_IDS => "record_ids"
  | .SIGNAL_LEN => "signal_len"
  | .SAMPLE_IDX => "sample_idx"

/-- `LabelType` members. -/
inductive LabelType | FAKE | NO_LABEL
deriving DecidableEq, Repr

/-- String values of `LabelType` members. -/
def LabelType.value : LabelType → String
  | .FAKE => "fake label"
  | .NO_LABEL => "no label"

/-- `DataType.__lt__(self, other)` from `names.py`: compares the underlying
string values with `<=` (sic). Parameterised by the subtype's value map. -/
def DataType.lt {α : Type} (value : α → String) (x y : α) : Bool :=
  decide (value x ≤ value y)

/-- `DataType.__le__(self, other)` from `names.py`: compares the underlying
string values with `<` (sic). Parameterised by the subtype's value map. -/
def DataType.le {α : Type} (value : α → String) (x y : α) : Bool :=
  decide (value x < value y)

/-- `BatchMetricType` members. -/
inductive BatchMetricType
  | ACCURACY | NUM_CORRECT | TRUE_NEGATIVE | TRUE_POSITIVE | FALSE_NEGATIVE
  | FALSE_POSITIVE | PPV | SENSITIVITY | SPECIFICITY | F1 | AUROC
deriving DecidableEq, Repr

/-- `EpochMetricType` members. -/
inductive EpochMetricType
  | ACCURACY | PPV | SENSITIVITY | SPECIFICITY | F1 | AUROC
deriving DecidableEq, Repr

/-- `LossType` members. -/
inductive LossType | MSE | BCE | CROSS_ENTROPY | RAW
deriving DecidableEq, Repr

/-! ### Value objects (`loss.py`, `results.py`, `metrics.py`) -/

/-- Tensors: their contents are opaque to this core; what matters is only
that they are passed around intact. -/
abbrev Tensor := List Rat

/-- A label-keyed tensor mapping (`Dict[LabelType, Tensor]`). -/
abbrev YMap := List (LabelType × Tensor)

/-- `LossResult`: a scalar value plus a loss-type tag. -/
structure LossResult where
  value : Rat
  type : LossType
deriving DecidableEq, Repr

/-- `BatchResult` (`results.py`): loss, computed batch metrics, batch size,
labels and predictions of a single batch. -/
structure BatchResult where
  loss : LossResult
  metrics : List (BatchMetricType × Rat)
  batch_size : Int
  y : YMap
  y_pred : YMap
deriving DecidableEq, Repr

/-- The key passed to `BatchResult.__getitem__` (a `BatchMetricType` or a
`LossType`). -/
inductive BRKey
  | batchMetricKey (t : BatchMetricType)
  | lossKey (t : LossType)
deriving DecidableEq, Repr

/-- The value produced by `BatchResult.__getitem__`: a metric float, the
stored `LossResult`, Python `None`, or a raised `KeyError`. -/
inductive BRItem
  | metricValue (v : Rat)
  | lossValue (l : LossResult)
  | pyNone
  | keyErrorRaised
deriving DecidableEq, Repr

/-- `BatchResult.__getitem__`: a `BatchMetricType` key indexes the metrics
dict (raising `KeyError` when absent); a `LossType` key returns the stored
loss when its type matches and `None` otherwise. -/
def BatchResult.getItem (b : BatchResult) : BRKey → BRItem
  | .batchMetricKey t =>
    match lookupA b.metrics t with
    | some v => .metricValue v
    | none => .keyErrorRaised
  | .lossKey t => if b.loss.type = t then .lossValue b.loss else .pyNone

/-- `EpochResult` (`results.py`): per-batch losses, per-batch-metric-type
float sequences, per-epoch-metric scalars, total sample count. -/
structure EpochResult where
  batch_losses : List LossResult
  batch_metrics : List (BatchMetricType × List Rat)
  epoch_metrics : List (EpochMetricType × Rat)
  epoch_size : Int
deriving DecidableEq, Repr

/-- The trained model: opaque to this core, carried through `FitResult`. -/
structure Model where
  id : Nat
deriving DecidableEq, Repr

/-- `FitResult` (`results.py`): the whole run's results, split by phase and
re-indexed metric-type-major. -/
structure FitResult where
  batch_train_losses : List (Int × List LossResult)
  batch_validation_losses : List (Int × List LossResult)
  batch_train_metrics : List (BatchMetricType × List (Int × List Rat))
  batch_validation_metrics : List (BatchMetricType × List (Int × List Rat))
  epoch_train_metrics : List (EpochMetricType × List (Int × Rat))
  epoch_validation_metrics : List (EpochMetricType × List (Int × Rat))
  num_epochs : Int
  model : Model
deriving DecidableEq, Repr

/-- A registered `BatchMetric` (`metrics.py`): a type tag plus the pure
metric function on label/prediction mappings. -/
structure BatchMetric where
  type : BatchMetricType
  metric : YMap → YMap → Rat

/-- `BatchMetric.__call__` (the `no_grad` wrapper is purity-only). -/
def BatchMetric.call (m : BatchMetric) (y y_pred : YMap) : Rat :=
  m.metric y y_pred

/-- A registered `EpochMetric` (`metrics.py`): a type tag, the pure aggregate
function, and the batch-metric kinds it requires. -/
structure EpochMetric where
  type : EpochMetricType
  metric : List BatchResult → Rat
  required_batch_metrics : List BatchMetricType

/-- `EpochMetric.__call__`: raises `IndexError` when some required
batch-metric kind is missing from some batch's metrics dict, otherwise
evaluates the aggregate function. -/
def EpochMetric.call (m : EpochMetric) (batch_results : List BatchResult) :
    Except PyError Rat :=
  if m.required_batch_metrics.all
      (fun t => batch_results.all (fun b => containsKey b.metrics t)) then
    Except.ok (m.metric batch_results)
  else Except.error PyError.indexError

/-! ### The Logger state machine (`logging.py`) -/

/-- The mutable state of a `Logger` instance (`Logger.__init__`). -/
structure Logger where
  batch_metrics : List BatchMetric
  epoch_metrics : List EpochMetric
  current_epoch : Int
  keep_output : Bool
  current_epoch_batch_results : List BatchResult
  batch_train_results : List (Int × List BatchResult)
  batch_validation_results : List (Int × List BatchResult)
  epoch_train_results : List (Int × EpochResult)
  epoch_validation_results : List (Int × EpochResult)
  mode : String
  train_epochs_run : Nat
  validation_epochs_run : Nat
  fit_result : Option FitResult

/-- `Logger._save_output` on the base class: always raises
`NotImplementedError`. -/
def Logger.save_output (_y _y_pred : YMap) : Except PyError Unit :=
  Except.error PyError.notImplementedError

/-- `Logger.new_batch`: when output retention is on, first calls
`_save_output` (which raises on the base class); then computes every
registered batch metric, builds the `BatchResult`, appends it to the
in-progress buffer and returns it. -/
def Logger.new_batch (s : Logger) (loss : LossResult) (y y_pred : YMap)
    (batch_size : Int) : Logger × Except PyError BatchResult :=
  match (if s.keep_output then Logger.save_output y y_pred else Except.ok ()) with
  | Except.error e => (s, Except.error e)
  | Except.ok _ =>
    let batch_result : BatchResult :=
      { loss := loss
        metrics := pyDict (s.batch_metrics.map fun m => (m.type, m.call y y_pred))
        batch_size := batch_size
        y := y
        y_pred := y_pred }
    ({ s with current_epoch_batch_results :=
        s.current_epoch_batch_results ++ [batch_result] },
      Except.ok batch_result)

/-- `Logger.start_epoch`: raises `ValueError` when `train == validation`;
otherwise resets the in-progress buffer, sets the mode string and the
current epoch number. -/
def Logger.start_epoch (s : Logger) (train validation : Bool)
    (current_epoch : Int) : Logger × Except PyError Unit :=
  if train = validation then (s, Except.error PyError.valueError)
  else
    ({ s with current_epoch_batch_results := []
              mode := if train then "training" else "validation"
              current_epoch := current_epoch },
      Except.ok ())

/-- The inner loop of `Logger.finish_epoch` over the registered batch
metrics for one buffered batch: `batch_metrics[metric.type].append(batch[metric.type])`
(either subscript raising `KeyError` when its key is absent). -/
def appendMetrics (b : BatchResult) :
    List BatchMetric → List (BatchMetricType × List Rat) →
    Except PyError (List (BatchMetricType × List Rat))
  | [], d => Except.ok d
  | m :: rest, d =>
    if containsKey d m.type then
      match lookupA b.metrics m.type with
      | some v => appendMetrics b rest (appendAt d m.type v)
      | none => Except.error PyError.keyError
    else Except.error PyError.keyError

/-- The accumulation loop of `Logger.finish_epoch` over the in-progress
buffer: collects the loss sequence, the per-metric-type float sequences, and
the running sum of batch sizes. -/
def collectBatches (bms : List BatchMetric) :
    List BatchResult → List LossResult → List (BatchMetricType × List Rat) →
    Int → Except PyError (List LossResult × List (BatchMetricType × List Rat) × Int)
  | [], batch_losses, d, epoch_size => Except.ok (batch_losses, d, epoch_size)
  | b :: rest, batch_losses, d, epoch_size =>
    match appendMetrics b bms d with
    | Except.ok d' =>
      collectBatches bms rest (batch_losses ++ [b.loss]) d' (epoch_size + b.batch_size)
    | Except.error e => Except.error e

/-- The epoch-metric loop of `Logger.finish_epoch`:
`epoch_metrics[m.type] = m(buffer)` for every registered epoch metric,
propagating the first raised error. -/
def computeEpochMetrics (buffer : List BatchResult) :
    List EpochMetric → List (EpochMetricType × Rat) →
    Except PyError (List (EpochMetricType × Rat))
  | [], acc => Except.ok acc
  | m :: rest, acc =>
    match m.call buffer with
    | Except.ok v => computeEpochMetrics buffer rest (pyInsert acc m.type v)
    | Except.error e => Except.error e

/-- `Logger.finish_epoch`: accumulates the buffered batch results, evaluates
the epoch metrics, then stores the buffer and the `EpochResult` under
`current_epoch` in the dictionary selected by `mode` (raising `RuntimeError`
for any other mode) and increments that phase's epoch-run counter. -/
def Logger.finish_epoch (s : Logger) : Logger × Except PyError EpochResult :=
  match collectBatches s.batch_metrics s.current_epoch_batch_results []
      (pyDict (s.batch_metrics.map fun m => (m.type, ([] : List Rat)))) 0 with
  | Except.error e => (s, Except.error e)
  | Except.ok (batch_losses, bmets, epoch_size) =>
    match computeEpochMetrics s.current_epoch_batch_results s.epoch_metrics [] with
    | Except.error e => (s, Except.error e)
    | Except.ok emets =>
      let epoch_result : EpochResult :=
        { batch_losses := batch_losses
          batch_metrics := bmets
          epoch_metrics := emets
          epoch_size := epoch_size }
      if s.mode = "training" then
        ({ s with
            batch_train_results :=
              pyInsert s.batch_train_results s.current_epoch
                s.current_epoch_batch_results
            epoch_train_results :=
              pyInsert s.epoch_train_results s.current_epoch epoch_result
            train_epochs_run := s.train_epochs_run + 1 },
          Except.ok epoch_result)
      else if s.mode = "validation" then
        ({ s with
            batch_validation_results :=
              pyInsert s.batch_validation_results s.current_epoch
                s.current_epoch_batch_results
            epoch_validation_results :=
              pyInsert s.epoch_validation_results s.current_epoch epoch_result
            validation_epochs_run := s.validation_epochs_run + 1 },
          Except.ok epoch_result)
      else (s, Except.error PyError.runtimeError)

/-- One metric's step of the transposition in `Logger.finish_training`:
`dst[t][epoch] = src[t]` (either subscript raising `KeyError` when its key
is absent), iterated over the registered metric types. -/
def transposeInto {τ α : Type} [DecidableEq τ] (epoch : Int) (src : List (τ × α)) :
    List τ → List (τ × List (Int × α)) →
    Except PyError (List (τ × List (Int × α)))
  | [], d => Except.ok d
  | t :: rest, d =>
    match lookupA src t with
    | none => Except.error PyError.keyError
    | some v =>
      match lookupA d t with
      | none => Except.error PyError.keyError
      | some inner => transposeInto epoch src rest (pyInsert d t (pyInsert inner epoch v))

/-- The per-phase loop of `Logger.finish_training`: for every stored
`(epoch, EpochResult)` pair, copies the batch losses and re-indexes the
batch and epoch metrics metric-type-major. -/
def phaseFold (bmts : List BatchMetricType) (emts : List EpochMetricType) :
    List (Int × EpochResult) →
    List (Int × List LossResult) →
    List (BatchMetricType × List (Int × List Rat)) →
    List (EpochMetricType × List (Int × Rat)) →
    Except PyError (List (Int × List LossResult) ×
      List (BatchMetricType × List (Int × List Rat)) ×
      List (EpochMetricType × List (Int × Rat)))
  | [], lossesD, bD, eD => Except.ok (lossesD, bD, eD)
  | (epoch, res) :: rest, lossesD, bD, eD =>
    let lossesD' := pyInsert lossesD epoch res.batch_losses
    match transposeInto epoch res.batch_metrics bmts bD with
    | Except.error err => Except.error err
    | Except.ok bD' =>
      match transposeInto epoch res.epoch_metrics emts eD with
      | Except.error err => Except.error err
      | Except.ok eD' => phaseFold bmts emts rest lossesD' bD' eD'

/-- `Logger.finish_training`: transposes the stored training and validation
epoch results into metric-type-major dictionaries, takes `num_epochs` from
the current epoch counter, builds the `FitResult` and stores it on the
logger. -/
def Logger.finish_training (s : Logger) (model : Model) :
    Logger × Except PyError FitResult :=
  let bmts := s.batch_metrics.map fun m => m.type
  let emts := s.epoch_metrics.map fun m => m.type
  match phaseFold bmts emts s.epoch_train_results []
      (pyDict (s.batch_metrics.map fun m => (m.type, ([] : List (Int × List Rat)))))
      (pyDict (s.epoch_metrics.map fun m => (m.type, ([] : List (Int × Rat))))) with
  | Except.error e => (s, Except.error e)
  | Except.ok (batch_train_losses, batch_train_metrics, epoch_train_metrics) =>
    match phaseFold bmts emts s.epoch_validation_results []
        (pyDict (s.batch_metrics.map fun m => (m.type, ([] : List (Int × List Rat)))))
        (pyDict (s.epoch_metrics.map fun m => (m.type, ([] : List (Int × Rat))))) with
    | Except.error e => (s, Except.error e)
    | Except.ok (batch_validation_losses, batch_validation_metrics,
        epoch_validation_metrics) =>
      let fit_result : FitResult :=
        { batch_train_losses := batch_train_losses
          batch_validation_losses := batch_validation_losses
          batch_train_metrics := batch_train_metrics
          batch_validation_metrics := batch_validation_metrics
          epoch_train_metrics := epoch_train_metrics
          epoch_validation_metrics := epoch_validation_metrics
          num_epochs := s.current_epoch
          model := model }
      ({ s with fit_result := some fit_result }, Except.ok fit_result)

/-- One call's worth of input to `Logger.new_batch`. -/
structure BatchInput where
  loss : LossResult
  y : YMap
  y_pred : YMap
  batch_size : Int
deriving DecidableEq, Repr

/-- The `BatchResult` that `Logger.new_batch` builds for a given input. -/
def newBatchResult (bms : List BatchMetric) (i : BatchInput) : BatchResult :=
  { loss := i.loss
    metrics := pyDict (bms.map fun m => (m.type, m.call i.y i.y_pred))
    batch_size := i.batch_size
    y := i.y
    y_pred := i.y_pred }

/-- A sequence of `new_batch` calls, stopping at the first raised error. -/
def runBatches (s : Logger) : List BatchInput → Logger × Except PyError Unit
  | [] => (s, Except.ok ())
  | i :: rest =>
    match Logger.new_batch s i.loss i.y i.y_pred i.batch_size with
    | (s', Except.ok _) => runBatches s' rest
    | (s', Except.error e) => (s', Except.error e)

/-! ### Concrete instances used in witnesses and counterexamples -/

/-- `Logger.__init__` with an explicit starting epoch and retention flag. -/
def Logger.init (batch_metrics : List BatchMetric) (epoch_metrics : List EpochMetric)
    (start_epoch : Int) (keep_output : Bool) : Logger :=
  { batch_metrics := batch_metrics
    epoch_metrics := epoch_metrics
    current_epoch := start_epoch
    keep_output := keep_output
    current_epoch_batch_results := []
    batch_train_results := []
    batch_validation_results := []
    epoch_train_results := []
    epoch_validation_results := []
    mode := ""
    train_epochs_run := 0
    validation_epochs_run := 0
    fit_result := none }

/-- A sample batch metric of kind ACCURACY, constantly 2. -/
def exAccuracy : BatchMetric :=
  { type := BatchMetricType.ACCURACY, metric := fun _ _ => 2 }

/-- A sample epoch metric of kind F1 depending on ACCURACY, constantly 3. -/
def exEpochF1 : EpochMetric :=
  { type := EpochMetricType.F1
    metric := fun _ => 3
    required_batch_metrics := [BatchMetricType.ACCURACY] }

/-- A sample epoch metric that requires the PPV batch metric. -/
def exEpochNeedsPPV : EpochMetric :=
  { type := EpochMetricType.AUROC
    metric := fun _ => 0
    required_batch_metrics := [BatchMetricType.PPV] }

/-- A sample MSE loss result. -/
def exLoss (v : Rat) : LossResult := { value := v, type := LossType.MSE }

/-- A sample label-keyed tensor mapping. -/
def exY : YMap := [(LabelType.FAKE, [1])]

/-- A sample `new_batch` input with the given loss value and batch size. -/
def exInput (v : Rat) (n : Int) : BatchInput :=
  { loss := exLoss v, y := exY, y_pred := exY, batch_size := n }

/-- The concrete run behind the C1 witness: one ACCURACY metric, one F1
epoch metric, a training epoch numbered 1, and two batches. -/
def c1s0 : Logger := Logger.init [exAccuracy] [exEpochF1] 0 false

/-- The C1 witness inputs: two batches with sizes 4 and 6. -/
def c1inputs : List BatchInput := [exInput 5 4, exInput 7 6]

/-- The logger state after the C1 witness run's batches. -/
def c1s2 : Logger :=
  (runBatches (Logger.start_epoch c1s0 true false 1).1 c1inputs).1

/-- The epoch result the C1 witness run produces. -/
def c1er : EpochResult :=
  { batch_losses := [exLoss 5, exLoss 7]
    batch_metrics := [(BatchMetricType.ACCURACY, [2, 2])]
    epoch_metrics := [(EpochMetricType.F1, 3)]
    epoch_size := 10 }

/-- A logger whose registered epoch metric requires PPV while no batch
metric produces it, with a training epoch open and no batches buffered. -/
def c4state : Logger :=
  (Logger.start_epoch (Logger.init [] [exEpochNeedsPPV] 0 false) true false 0).1

/-- A logger with an invalid mode (never started), a buffered batch with no
metrics, and an epoch metric requiring PPV. -/
def c5state : Logger :=
  { Logger.init [] [exEpochNeedsPPV] 0 false with
    current_epoch_batch_results :=
      [{ loss := exLoss 1, metrics := [], batch_size := 1, y := [], y_pred := [] }] }

/-- A batch result used for the C7 witness. -/
def c7b : BatchResult :=
  { loss := exLoss 1
    metrics := [(BatchMetricType.ACCURACY, 2)]
    batch_size := 3
    y := []
    y_pred := [] }

/-- A freshly started logger with retention disabled, for C8. -/
def c8state : Logger :=
  (Logger.start_epoch (Logger.init [exAccuracy] [] 0 false) true false 0).1

/-- The batch result the C8 run builds. -/
def c8br : BatchResult :=
  { loss := exLoss 1
    metrics := [(BatchMetricType.ACCURACY, 2)]
    batch_size := 4
    y := exY
    y_pred := exY }

/-- A logger state with one finished training epoch and one finished
validation epoch already stored, for the C2 witness. -/
def c2state : Logger :=
  { Logger.init [exAccuracy] [exEpochF1] 0 false with
    current_epoch := 2
    epoch_train_results := [(1, c1er)]
    epoch_validation_results :=
      [(2, { batch_losses := [exLoss 9]
             batch_metrics := [(BatchMetricType.ACCURACY, [2])]
             epoch_metrics := [(EpochMetricType.F1, 3)]
             epoch_size := 7 })] }


/-- A freshly started validation epoch on a logger with no metrics, for the
C5 witness. -/
def c5w : Logger := (Logger.start_epoch (Logger.init [] [] 0 false) false true 3).1

/-- The C4 witness logger: an epoch metric requiring PPV, no batch metrics. -/
def c4ws0 : Logger := Logger.init [] [exEpochNeedsPPV] 0 false

/-- The C4 witness inputs: one batch. -/
def c4winputs : List BatchInput := [exInput 1 2]

/-- The logger state after the C4 witness run's batch. -/
def c4ws2 : Logger :=
  (runBatches (Logger.start_epoch c4ws0 true false 0).1 c4winputs).1


/-! ### Lemmas about the dict embedding -/

theorem lookupA_cons {κ α : Type} [DecidableEq κ] (p : κ × α) (t : List (κ × α))
    (k : κ) : lookupA (p :: t) k = if p.1 = k then some p.2 else lookupA t k := rfl

theorem containsKey_cons {κ α : Type} [DecidableEq κ] (p : κ × α)
    (t : List (κ × α)) (k : κ) :
    containsKey (p :: t) k = (p.1 = k || containsKey t k) := by
  by_cases h : p.1 = k <;> simp [containsKey, lookupA_cons, h]

theorem lookupA_append_some {κ α : Type} [DecidableEq κ]
    {d₁ : List (κ × α)} (d₂ : List (κ × α)) {k : κ} {v : α}
    (h : lookupA d₁ k = some v) : lookupA (d₁ ++ d₂) k = some v := by
  induction d₁ with
  | nil => simp [lookupA] at h
  | cons p t ih =>
    rw [lookupA_cons] at h
    rw [List.cons_append, lookupA_cons]
    split at h
    · simp [*]
    · simp only [*, if_false]

theorem lookupA_append_none {κ α : Type} [DecidableEq κ]
    {d₁ : List (κ × α)} (d₂ : List (κ × α)) {k : κ}
    (h : lookupA d₁ k = none) : lookupA (d₁ ++ d₂) k = lookupA d₂ k := by
  induction d₁ with
  | nil => simp
  | cons p t ih =>
    rw [lookupA_cons] at h
    rw [List.cons_append, lookupA_cons]
    split at h
    · simp at h
    · simp only [*, if_false]

theorem lookupA_map_set_self {κ α : Type} [DecidableEq κ]
    {d : List (κ × α)} {k : κ} (v : α) (h : containsKey d k = true) :
    lookupA (d.map fun p => if p.1 = k then (k, v) else p) k = some v := by
  induction d with
  | nil => simp [containsKey, lookupA] at h
  | cons p t ih =>
    by_cases hp : p.1 = k
    · simp [lookupA_cons, hp]
    · have ht : containsKey t k = true := by
        rw [containsKey_cons] at h
        simpa [hp] using h
      simpa [lookupA_cons, hp] using ih ht

theorem lookupA_map_set_ne {κ α : Type} [DecidableEq κ]
    (d : List (κ × α)) (k : κ) (v : α) {k' : κ} (h : k' ≠ k) :
    lookupA (d.map fun p => if p.1 = k then (k, v) else p) k' = lookupA d k' := by
  induction d with
  | nil => simp
  | cons p t ih =>
    by_cases hp : p.1 = k
    · have : k ≠ k' := Ne.symm h
      simp [lookupA_cons, hp, this, ih]
    · simp only [List.map_cons, hp, if_false, lookupA_cons]
      split <;> simp [*]

theorem lookupA_pyInsert_self {κ α : Type} [DecidableEq κ]
    (d : List (κ × α)) (k : κ) (v : α) : lookupA (pyInsert d k v) k = some v := by
  unfold pyInsert
  split
  · exact lookupA_map_set_self v (by assumption)
  · rename_i hc
    have hn : lookupA d k = none := by
      cases h' : lookupA d k with
      | none => rfl
      | some w => simp [containsKey, h'] at hc
    rw [lookupA_append_none _ hn]
    simp [lookupA_cons]

theorem lookupA_pyInsert_ne {κ α : Type} [DecidableEq κ]
    (d : List (κ × α)) (k : κ) (v : α) {k' : κ} (h : k' ≠ k) :
    lookupA (pyInsert d k v) k' = lookupA d k' := by
  unfold pyInsert
  split
  · exact lookupA_map_set_ne d k v h
  · cases hl : lookupA d k' with
    | some w => exact lookupA_append_some _ hl
    | none =>
      rw [lookupA_append_none _ hl]
      simp [lookupA_cons, lookupA, Ne.symm h]

theorem containsKey_pyInsert {κ α : Type} [DecidableEq κ]
    (d : List (κ × α)) (k : κ) (v : α) (k' : κ) :
    containsKey (pyInsert d k v) k' = true ↔ (k' = k ∨ containsKey d k' = true) := by
  by_cases h : k' = k
  · subst h
    simp [containsKey, lookupA_pyInsert_self]
  · simp [containsKey, lookupA_pyInsert_ne d k v h, h]

theorem lookupA_appendAt_self {κ α : Type} [DecidableEq κ]
    (d : List (κ × List α)) (k : κ) (v : α) :
    lookupA (appendAt d k v) k = (lookupA d k).map (fun l => l ++ [v]) := by
  induction d with
  | nil => simp [appendAt, lookupA]
  | cons p t ih =>
    by_cases hp : p.1 = k
    · simp [appendAt, lookupA_cons, hp]
    · simpa [appendAt, lookupA_cons, hp] using ih

theorem lookupA_appendAt_ne {κ α : Type} [DecidableEq κ]
    (d : List (κ × List α)) (k : κ) (v : α) {k' : κ} (h : k' ≠ k) :
    lookupA (appendAt d k v) k' = lookupA d k' := by
  induction d with
  | nil => simp [appendAt, lookupA]
  | cons p t ih =>
    have hcons : appendAt (p :: t) k v =
        (if p.1 = k then (p.1, p.2 ++ [v]) else p) :: appendAt t k v := rfl
    rw [hcons, lookupA_cons, lookupA_cons]
    by_cases hp : p.1 = k
    · have hk : ¬k = k' := fun he => h he.symm
      simp [hp, hk, ih]
    · simp only [hp, if_false]
      split <;> simp [*]

theorem containsKey_appendAt {κ α : Type} [DecidableEq κ]
    (d : List (κ × List α)) (k : κ) (v : α) (k' : κ) :
    containsKey (appendAt d k v) k' = containsKey d k' := by
  by_cases h : k' = k
  · subst h
    simp [containsKey, lookupA_appendAt_self]
  · simp [containsKey, lookupA_appendAt_ne d k v h]

theorem containsKey_foldl_pyInsert {κ α : Type} [DecidableEq κ]
    (l : List (κ × α)) (d₀ : List (κ × α)) (k : κ) :
    containsKey (l.foldl (fun d p => pyInsert d p.1 p.2) d₀) k = true ↔
      (containsKey d₀ k = true ∨ ∃ p ∈ l, p.1 = k) := by
  induction l generalizing d₀ with
  | nil => simp
  | cons p t ih =>
    simp only [List.foldl_cons, ih, containsKey_pyInsert, List.mem_cons]
    constructor
    · rintro (⟨h | h⟩ | ⟨q, hq, hk⟩)
      · exact Or.inr ⟨p, Or.inl rfl, h.symm⟩
      · exact Or.inl h
      · exact Or.inr ⟨q, Or.inr hq, hk⟩
    · rintro (h | ⟨q, (rfl | hq), hk⟩)
      · exact Or.inl (Or.inr h)
      · exact Or.inl (Or.inl hk.symm)
      · exact Or.inr ⟨q, hq, hk⟩

theorem containsKey_pyDict {κ α : Type} [DecidableEq κ]
    (l : List (κ × α)) (k : κ) :
    containsKey (pyDict l) k = true ↔ ∃ p ∈ l, p.1 = k := by
  unfold pyDict
  rw [containsKey_foldl_pyInsert]
  simp [containsKey, lookupA]

theorem lookupA_foldl_pyInsert_not_mem {κ α : Type} [DecidableEq κ]
    (l : List (κ × α)) (d₀ : List (κ × α)) (k : κ) (h : ∀ p ∈ l, p.1 ≠ k) :
    lookupA (l.foldl (fun d p => pyInsert d p.1 p.2) d₀) k = lookupA d₀ k := by
  induction l generalizing d₀ with
  | nil => simp
  | cons p t ih =>
    simp only [List.foldl_cons]
    rw [ih _ (fun q hq => h q (List.mem_cons_of_mem _ hq))]
    exact lookupA_pyInsert_ne _ _ _ (fun he => h p (List.mem_cons_self _ _) he.symm)

theorem lookupA_foldl_pyInsert_nodup {κ α : Type} [DecidableEq κ]
    {l : List (κ × α)} (d₀ : List (κ × α)) {k : κ} {v : α}
    (hnd : (l.map Prod.fst).Nodup) (hmem : (k, v) ∈ l) :
    lookupA (l.foldl (fun d p => pyInsert d p.1 p.2) d₀) k = some v := by
  induction l generalizing d₀ with
  | nil => simp at hmem
  | cons p t ih =>
    simp only [List.map_cons, List.nodup_cons] at hnd
    rcases List.mem_cons.mp hmem with h | h
    · have hp : p = (k, v) := h.symm
      subst hp
      simp only [List.foldl_cons]
      rw [lookupA_foldl_pyInsert_not_mem t _ k
        (fun q hq he => hnd.1 (List.mem_map.mpr ⟨q, hq, he⟩))]
      exact lookupA_pyInsert_self _ _ _
    · exact ih _ hnd.2 h

theorem lookupA_pyDict_nodup {κ α : Type} [DecidableEq κ]
    {l : List (κ × α)} {k : κ} {v : α}
    (hnd : (l.map Prod.fst).Nodup) (hmem : (k, v) ∈ l) :
    lookupA (pyDict l) k = some v :=
  lookupA_foldl_pyInsert_nodup [] hnd hmem

theorem lookupA_foldl_pyInsert_const {κ α : Type} [DecidableEq κ]
    {l : List (κ × α)} (d₀ : List (κ × α)) {c : α} (hc : ∀ p ∈ l, p.2 = c)
    {k : κ} {w : α}
    (h : lookupA (l.foldl (fun d p => pyInsert d p.1 p.2) d₀) k = some w) :
    lookupA d₀ k = some w ∨ w = c := by
  induction l generalizing d₀ with
  | nil => exact Or.inl h
  | cons p t ih =>
    simp only [List.foldl_cons] at h
    rcases ih _ (fun q hq => hc q (List.mem_cons_of_mem _ hq)) h with h' | h'
    · by_cases hk : k = p.1
      · subst hk
        rw [lookupA_pyInsert_self] at h'
        exact Or.inr (by simpa [hc p (List.mem_cons_self _ _)] using h'.symm)
      · rw [lookupA_pyInsert_ne _ _ _ hk] at h'
        exact Or.inl h'
    · exact Or.inr h'

theorem lookupA_pyDict_const {κ α : Type} [DecidableEq κ]
    {l : List (κ × α)} {c : α} (hc : ∀ p ∈ l, p.2 = c) {k : κ}
    (h : containsKey (pyDict l) k = true) : lookupA (pyDict l) k = some c := by
  rcases Option.isSome_iff_exists.mp h with ⟨w, hw⟩
  rcases lookupA_foldl_pyInsert_const [] hc hw with h' | h'
  · simp [lookupA] at h'
  · exact h' ▸ hw

/-! ### Lemmas about `new_batch` runs and `finish_epoch` accumulation -/

theorem runBatches_ok {inputs : List BatchInput} {s s₂ : Logger}
    (h : runBatches s inputs = (s₂, Except.ok ())) :
    s₂ = { s with current_epoch_batch_results :=
      s.current_epoch_batch_results ++ inputs.map (newBatchResult s.batch_metrics) } := by
  induction inputs generalizing s with
  | nil =>
    simp only [runBatches] at h
    cases h
    simp
  | cons i rest ih =>
    cases hk : s.keep_output with
    | true =>
      simp [runBatches, Logger.new_batch, Logger.save_output, hk] at h
    | false =>
      simp only [runBatches, Logger.new_batch, hk, if_false] at h
      have h' := ih h
      rw [h']
      simp [newBatchResult, BatchMetric.call]

theorem appendMetrics_spec (b : BatchResult) (bms : List BatchMetric)
    (hnd : (bms.map (fun m => m.type)).Nodup)
    (d : List (BatchMetricType × List Rat)) (cur : BatchMetric → List Rat)
    (hd : ∀ m ∈ bms, lookupA d m.type = some (cur m))
    (hb : ∀ m ∈ bms, containsKey b.metrics m.type = true) :
    ∃ d', appendMetrics b bms d = Except.ok d' ∧
      (∀ k, containsKey d' k = containsKey d k) ∧
      (∀ k, k ∉ bms.map (fun m => m.type) → lookupA d' k = lookupA d k) ∧
      (∀ m ∈ bms, ∀ v, lookupA b.metrics m.type = some v →
        lookupA d' m.type = some (cur m ++ [v])) := by
  induction bms generalizing d cur with
  | nil => exact ⟨d, rfl, fun _ => rfl, fun _ _ => rfl, fun m hm => absurd hm (by simp)⟩
  | cons m rest ih =>
    simp only [List.map_cons, List.nodup_cons] at hnd
    have hdm := hd m (List.mem_cons_self _ _)
    have hcd : containsKey d m.type = true := by
      simp [containsKey, hdm]
    rcases Option.isSome_iff_exists.mp (hb m (List.mem_cons_self _ _)) with ⟨v, hv⟩
    have hstep : appendMetrics b (m :: rest) d =
        appendMetrics b rest (appendAt d m.type v) := by
      simp [appendMetrics, hcd, hv]
    have hd₁ : ∀ m' ∈ rest, lookupA (appendAt d m.type v) m'.type = some (cur m') := by
      intro m' hm'
      have hne : m'.type ≠ m.type := fun he =>
        hnd.1 (he ▸ List.mem_map.mpr ⟨m', hm', rfl⟩)
      rw [lookupA_appendAt_ne _ _ _ hne]
      exact hd m' (List.mem_cons_of_mem _ hm')
    have hself : lookupA (appendAt d m.type v) m.type = some (cur m ++ [v]) := by
      rw [lookupA_appendAt_self, hdm]
      rfl
    rcases ih hnd.2 (appendAt d m.type v) cur hd₁
        (fun m' hm' => hb m' (List.mem_cons_of_mem _ hm')) with
      ⟨d', hEq, hkeys, hpres, hvals⟩
    refine ⟨d', hstep ▸ hEq, ?_, ?_, ?_⟩
    · intro k
      rw [hkeys k, containsKey_appendAt]
    · intro k hk
      simp only [List.map_cons, List.mem_cons] at hk
      push_neg at hk
      rw [hpres k hk.2, lookupA_appendAt_ne _ _ _ hk.1]
    · intro m' hm' v' hv'
      rcases List.mem_cons.mp hm' with h' | h'
      · subst h'
        rw [hv] at hv'
        cases hv'
        rw [hpres m'.type hnd.1]
        exact hself
      · exact hvals m' h' v' hv'

theorem collectBatches_spec (bms : List BatchMetric)
    (hnd : (bms.map (fun m => m.type)).Nodup) (buffer : List BatchResult)
    (hb : ∀ b ∈ buffer, ∀ m ∈ bms, containsKey b.metrics m.type = true)
    (losses : List LossResult) (d : List (BatchMetricType × List Rat)) (size : Int)
    (cur : BatchMetric → List Rat)
    (hd : ∀ m ∈ bms, lookupA d m.type = some (cur m)) :
    ∃ d', collectBatches bms buffer losses d size =
        Except.ok (losses ++ buffer.map (fun b => b.loss), d',
          size + (buffer.map (fun b => b.batch_size)).sum) ∧
      (∀ m ∈ bms, lookupA d' m.type =
        some (cur m ++ buffer.map (fun b => (lookupA b.metrics m.type).getD 0))) := by
  induction buffer generalizing losses d size cur with
  | nil =>
    refine ⟨d, by simp [collectBatches], ?_⟩
    intro m hm
    simpa using hd m hm
  | cons b rest ih =>
    rcases appendMetrics_spec b bms hnd d cur hd (hb b (List.mem_cons_self _ _)) with
      ⟨d₁, hEq, _, _, hvals⟩
    have hd₁ : ∀ m ∈ bms,
        lookupA d₁ m.type = some (cur m ++ [(lookupA b.metrics m.type).getD 0]) := by
      intro m hm
      rcases Option.isSome_iff_exists.mp (hb b (List.mem_cons_self _ _) m hm) with ⟨v, hv⟩
      rw [hvals m hm v hv, hv]
      rfl
    rcases ih (fun b' hb' => hb b' (List.mem_cons_of_mem _ hb'))
        (losses ++ [b.loss]) d₁ (size + b.batch_size)
        (fun m => cur m ++ [(lookupA b.metrics m.type).getD 0]) hd₁ with
      ⟨d', hEq', hvals'⟩
    refine ⟨d', ?_, ?_⟩
    · have hstep : collectBatches bms (b :: rest) losses d size =
          collectBatches bms rest (losses ++ [b.loss]) d₁ (size + b.batch_size) := by
        simp [collectBatches, hEq]
      rw [hstep, hEq']
      have hlo : losses ++ [b.loss] ++ rest.map (fun b => b.loss) =
          losses ++ (b :: rest).map (fun b => b.loss) := by
        simp
      have hsz : size + b.batch_size + (rest.map (fun b => b.batch_size)).sum =
          size + ((b :: rest).map (fun b => b.batch_size)).sum := by
        simp [add_assoc]
      rw [hlo, hsz]
    · intro m hm
      rw [hvals' m hm]
      simp

/-! ### Lemmas about `finish_training` transposition -/

theorem containsKey_pyInsert_eq {κ α : Type} [DecidableEq κ]
    (d : List (κ × α)) (k₀ : κ) (v : α) (h : containsKey d k₀ = true) (k : κ) :
    containsKey (pyInsert d k₀ v) k = containsKey d k := by
  by_cases hk : k = k₀
  · subst hk
    rw [h]
    exact (containsKey_pyInsert d k v k).mpr (Or.inl rfl)
  · simp [containsKey, lookupA_pyInsert_ne _ _ _ hk]

theorem transposeInto_spec {τ α : Type} [DecidableEq τ] (epoch : Int)
    (src : List (τ × α)) (ts : List τ) (hnd : ts.Nodup)
    (d : List (τ × List (Int × α)))
    (hsrc : ∀ t ∈ ts, containsKey src t = true)
    (hd : ∀ t ∈ ts, containsKey d t = true) :
    ∃ d', transposeInto epoch src ts d = Except.ok d' ∧
      (∀ k, containsKey d' k = containsKey d k) ∧
      (∀ t ∈ ts, lookup2 d' t epoch = lookupA src t) ∧
      (∀ k e', e' ≠ epoch → lookup2 d' k e' = lookup2 d k e') ∧
      (∀ k, k ∉ ts → ∀ e', lookup2 d' k e' = lookup2 d k e') := by
  induction ts generalizing d with
  | nil =>
    exact ⟨d, rfl, fun _ => rfl, fun t ht => absurd ht (by simp),
      fun _ _ _ => rfl, fun _ _ _ => rfl⟩
  | cons t rest ih =>
    simp only [List.nodup_cons] at hnd
    rcases Option.isSome_iff_exists.mp (hsrc t (List.mem_cons_self _ _)) with ⟨v, hv⟩
    rcases Option.isSome_iff_exists.mp (hd t (List.mem_cons_self _ _)) with ⟨inner, hi⟩
    have hstep : transposeInto epoch src (t :: rest) d =
        transposeInto epoch src rest (pyInsert d t (pyInsert inner epoch v)) := by
      simp [transposeInto, hv, hi]
    set d₁ := pyInsert d t (pyInsert inner epoch v) with hd₁def
    have hkeys₁ : ∀ k, containsKey d₁ k = containsKey d k :=
      containsKey_pyInsert_eq d t _ (hd t (List.mem_cons_self _ _))
    have hself₁ : lookup2 d₁ t epoch = some v := by
      simp [lookup2, hd₁def, lookupA_pyInsert_self]
    have hepoch₁ : ∀ k e', e' ≠ epoch → lookup2 d₁ k e' = lookup2 d k e' := by
      intro k e' he
      by_cases hk : k = t
      · subst hk
        simp [lookup2, hd₁def, lookupA_pyInsert_self, hi,
          lookupA_pyInsert_ne _ _ _ he]
      · simp [lookup2, hd₁def, lookupA_pyInsert_ne _ _ _ hk]
    have hne₁ : ∀ k, k ≠ t → ∀ e', lookup2 d₁ k e' = lookup2 d k e' := by
      intro k hk e'
      simp [lookup2, hd₁def, lookupA_pyInsert_ne _ _ _ hk]
    rcases ih hnd.2 d₁ (fun t' ht' => hsrc t' (List.mem_cons_of_mem _ ht'))
        (fun t' ht' => (hkeys₁ t').symm ▸ hd t' (List.mem_cons_of_mem _ ht')) with
      ⟨d', hEq, hkeys, hvals, hep, hout⟩
    refine ⟨d', hstep ▸ hEq, fun k => (hkeys k).trans (hkeys₁ k), ?_, ?_, ?_⟩
    · intro t' ht'
      rcases List.mem_cons.mp ht' with h' | h'
      · subst h'
        rw [hout t' hnd.1 epoch, hself₁, hv]
      · exact hvals t' h'
    · intro k e' he
      rw [hep k e' he, hepoch₁ k e' he]
    · intro k hk e'
      simp only [List.mem_cons] at hk
      push_neg at hk
      rw [hout k hk.2 e', hne₁ k hk.1 e']

theorem phaseFold_spec (bmts : List BatchMetricType) (emts : List EpochMetricType)
    (hbn : bmts.Nodup) (hen : emts.Nodup)
    (l : List (Int × EpochResult)) (hk : (l.map Prod.fst).Nodup)
    (hwf : ∀ p ∈ l, (∀ t ∈ bmts, containsKey p.2.batch_metrics t = true) ∧
      (∀ t ∈ emts, containsKey p.2.epoch_metrics t = true))
    (lossesD : List (Int × List LossResult))
    (bD : List (BatchMetricType × List (Int × List Rat)))
    (eD : List (EpochMetricType × List (Int × Rat)))
    (hbD : ∀ t ∈ bmts, containsKey bD t = true)
    (heD : ∀ t ∈ emts, containsKey eD t = true) :
    ∃ lD' bD' eD', phaseFold bmts emts l lossesD bD eD = Except.ok (lD', bD', eD') ∧
      (∀ p ∈ l, lookupA lD' p.1 = some p.2.batch_losses ∧
        (∀ t ∈ bmts, lookup2 bD' t p.1 = lookupA p.2.batch_metrics t) ∧
        (∀ t ∈ emts, lookup2 eD' t p.1 = lookupA p.2.epoch_metrics t)) ∧
      (∀ e, e ∉ l.map Prod.fst →
        lookupA lD' e = lookupA lossesD e ∧
        (∀ t, lookup2 bD' t e = lookup2 bD t e) ∧
        (∀ t, lookup2 eD' t e = lookup2 eD t e)) := by
  induction l generalizing lossesD bD eD with
  | nil =>
    exact ⟨lossesD, bD, eD, rfl, fun p hp => absurd hp (by simp),
      fun e _ => ⟨rfl, fun _ => rfl, fun _ => rfl⟩⟩
  | cons p rest ih =>
    obtain ⟨e, res⟩ := p
    simp only [List.map_cons, List.nodup_cons] at hk
    have hwfh := hwf (e, res) (List.mem_cons_self _ _)
    rcases transposeInto_spec e res.batch_metrics bmts hbn bD hwfh.1 hbD with
      ⟨bD₁, hEqb, hkeysb, hvalsb, hepb, houtb⟩
    rcases transposeInto_spec e res.epoch_metrics emts hen eD hwfh.2 heD with
      ⟨eD₁, hEqe, hkeyse, hvalse, hepe, houte⟩
    have hstep : phaseFold bmts emts ((e, res) :: rest) lossesD bD eD =
        phaseFold bmts emts rest (pyInsert lossesD e res.batch_losses) bD₁ eD₁ := by
      simp [phaseFold, hEqb, hEqe]
    rcases ih hk.2 (fun q hq => hwf q (List.mem_cons_of_mem _ hq))
        (pyInsert lossesD e res.batch_losses) bD₁ eD₁
        (fun t ht => (hkeysb t).symm ▸ hbD t ht)
        (fun t ht => (hkeyse t).symm ▸ heD t ht) with
      ⟨lD', bD', eD', hEq, hmain, hpres⟩
    refine ⟨lD', bD', eD', hstep ▸ hEq, ?_, ?_⟩
    · intro q hq
      rcases List.mem_cons.mp hq with h' | h'
      · subst h'
        rcases hpres e hk.1 with ⟨hl, hb, he'⟩
        refine ⟨?_, ?_, ?_⟩
        · rw [hl, lookupA_pyInsert_self]
        · intro t ht
          rw [hb t, hvalsb t ht]
        · intro t ht
          rw [he' t, hvalse t ht]
      · exact hmain q h'
    · intro e' he'
      simp only [List.map_cons, List.mem_cons] at he'
      push_neg at he'
      rcases hpres e' he'.2 with ⟨hl, hb, he''⟩
      refine ⟨?_, ?_, ?_⟩
      · rw [hl, lookupA_pyInsert_ne _ _ _ he'.1]
      · intro t
        rw [hb t, hepb t e' he'.1]
      · intro t
        rw [he'' t, hepe t e' he'.1]

/-! ### Error-kind lemmas -/

theorem EpochMetric.call_error_kind {m : EpochMetric} {buffer : List BatchResult}
    {e : PyError} (h : m.call buffer = Except.error e) : e = PyError.indexError := by
  unfold EpochMetric.call at h
  split at h
  · cases h
  · cases h
    rfl

theorem computeEpochMetrics_error_kind {buffer : List BatchResult}
    {ems : List EpochMetric} {acc : List (EpochMetricType × Rat)} {e : PyError}
    (h : computeEpochMetrics buffer ems acc = Except.error e) :
    e = PyError.indexError := by
  induction ems generalizing acc with
  | nil => cases h
  | cons m rest ih =>
    unfold computeEpochMetrics at h
    split at h
    · exact ih h
    · cases h
      exact EpochMetric.call_error_kind (by assumption)

theorem computeEpochMetrics_fails {buffer : List BatchResult}
    {ems : List EpochMetric}
    (hfail : ∃ m ∈ ems, ∃ e, m.call buffer = Except.error e)
    (acc : List (EpochMetricType × Rat)) :
    computeEpochMetrics buffer ems acc = Except.error PyError.indexError := by
  induction ems generalizing acc with
  | nil => simp at hfail
  | cons m rest ih =>
    rcases hfail with ⟨m', hm', e, he⟩
    unfold computeEpochMetrics
    cases hc : m.call buffer with
    | ok v =>
      rcases List.mem_cons.mp hm' with h' | h'
      · subst h'
        rw [hc] at he
        cases he
      · exact ih ⟨m', h', e, he⟩ _
    | error e' =>
      rw [EpochMetric.call_error_kind hc]

theorem appendMetrics_error_kind {b : BatchResult} {bms : List BatchMetric}
    {d : List (BatchMetricType × List Rat)} {e : PyError}
    (h : appendMetrics b bms d = Except.error e) : e = PyError.keyError := by
  induction bms generalizing d with
  | nil => cases h
  | cons m rest ih =>
    unfold appendMetrics at h
    split at h
    · split at h
      · exact ih h
      · cases h
        rfl
    · cases h
      rfl

theorem collectBatches_error_kind {bms : List BatchMetric}
    {buffer : List BatchResult} {losses : List LossResult}
    {d : List (BatchMetricType × List Rat)} {size : Int} {e : PyError}
    (h : collectBatches bms buffer losses d size = Except.error e) :
    e = PyError.keyError := by
  induction buffer generalizing losses d size with
  | nil => cases h
  | cons b rest ih =>
    unfold collectBatches at h
    split at h
    · exact ih h
    · cases h
      exact appendMetrics_error_kind (by assumption)

/-! ### Claim theorems -/

/-- C3: `start_epoch(train, validation, n)` raises a configuration error
exactly when `train == validation`; on success the mode is "training" iff
`train`, the current epoch is `n`, and the in-progress buffer is empty. -/
theorem c3_start_epoch (s : Logger) (train validation : Bool) (n : Int) :
    ((Logger.start_epoch s train validation n).2 =
        Except.error PyError.valueError ↔ train = validation) ∧
    (train ≠ validation →
      (Logger.start_epoch s train validation n).2 = Except.ok () ∧
      (Logger.start_epoch s train validation n).1.mode =
        (if train then "training" else "validation") ∧
      (Logger.start_epoch s train validation n).1.current_epoch = n ∧
      (Logger.start_epoch s train validation n).1.current_epoch_batch_results = []) := by
  by_cases h : train = validation <;> simp [Logger.start_epoch, h]

/-- Witness for C3 at a concrete logger and arguments. -/
theorem c3_start_epoch_witness :
    ((Logger.start_epoch (Logger.init [] [] 0 false) true false 5).2 =
        Except.error PyError.valueError ↔ true = false) ∧
    (true ≠ false →
      (Logger.start_epoch (Logger.init [] [] 0 false) true false 5).2 = Except.ok () ∧
      (Logger.start_epoch (Logger.init [] [] 0 false) true false 5).1.mode =
        (if true then "training" else "validation") ∧
      (Logger.start_epoch (Logger.init [] [] 0 false) true false 5).1.current_epoch = 5 ∧
      (Logger.start_epoch (Logger.init [] [] 0 false) true false
        5).1.current_epoch_batch_results = []) :=
  c3_start_epoch (Logger.init [] [] 0 false) true false 5

/-- C6: whenever `finish_training` returns a `FitResult`, its `num_epochs`
equals the logger's `current_epoch` at call time. -/
theorem c6_num_epochs (s : Logger) (model : Model) (fr : FitResult)
    (h : (Logger.finish_training s model).2 = Except.ok fr) :
    fr.num_epochs = s.current_epoch := by
  cases hp1 : phaseFold (s.batch_metrics.map fun m => m.type)
      (s.epoch_metrics.map fun m => m.type) s.epoch_train_results []
      (pyDict (s.batch_metrics.map fun m => (m.type, ([] : List (Int × List Rat)))))
      (pyDict (s.epoch_metrics.map fun m => (m.type, ([] : List (Int × Rat))))) with
  | error e => simp [Logger.finish_training, hp1] at h
  | ok tr =>
    obtain ⟨a, b, c⟩ := tr
    cases hp2 : phaseFold (s.batch_metrics.map fun m => m.type)
        (s.epoch_metrics.map fun m => m.type) s.epoch_validation_results []
        (pyDict (s.batch_metrics.map fun m => (m.type, ([] : List (Int × List Rat)))))
        (pyDict (s.epoch_metrics.map fun m => (m.type, ([] : List (Int × Rat))))) with
    | error e => simp [Logger.finish_training, hp1, hp2] at h
    | ok tv =>
      obtain ⟨d, e', f⟩ := tv
      simp only [Logger.finish_training, hp1, hp2] at h
      cases h
      rfl

/-- Witness for C6: a logger with no finished epochs and current epoch 0. -/
theorem c6_num_epochs_witness :
    (Logger.finish_training (Logger.init [] [] 0 false) { id := 0 }).2 =
      Except.ok { batch_train_losses := []
                  batch_validation_losses := []
                  batch_train_metrics := []
                  batch_validation_metrics := []
                  epoch_train_metrics := []
                  epoch_validation_metrics := []
                  num_epochs := 0
                  model := { id := 0 } } ∧
    FitResult.num_epochs { batch_train_losses := []
                           batch_validation_losses := []
                           batch_train_metrics := []
                           batch_validation_metrics := []
                           epoch_train_metrics := []
                           epoch_validation_metrics := []
                           num_epochs := 0
                           model := { id := 0 } } =
      (Logger.init [] [] 0 false).current_epoch :=
  ⟨rfl, c6_num_epochs (Logger.init [] [] 0 false) { id := 0 } _ rfl⟩

/-- C7: indexing a `BatchResult` by a non-matching loss type returns Python
`None` (no error); by the matching loss type, the stored `LossResult`; by a
batch-metric kind present in its metrics dict, that metric's float. -/
theorem c7_batch_result_getitem (b : BatchResult) (lt : LossType)
    (mt : BatchMetricType) :
    (b.loss.type ≠ lt → b.getItem (BRKey.lossKey lt) = BRItem.pyNone) ∧
    (b.loss.type = lt → b.getItem (BRKey.lossKey lt) = BRItem.lossValue b.loss) ∧
    (∀ v, lookupA b.metrics mt = some v →
      b.getItem (BRKey.batchMetricKey mt) = BRItem.metricValue v) := by
  refine ⟨fun h => ?_, fun h => ?_, fun v hv => ?_⟩
  · simp [BatchResult.getItem, h]
  · simp [BatchResult.getItem, h]
  · simp [BatchResult.getItem, hv]

/-- Witness for C7 at a concrete batch result, a non-matching loss type and
its stored ACCURACY metric. -/
theorem c7_batch_result_getitem_witness :
    (c7b.loss.type ≠ LossType.BCE →
      c7b.getItem (BRKey.lossKey LossType.BCE) = BRItem.pyNone) ∧
    (c7b.loss.type = LossType.BCE →
      c7b.getItem (BRKey.lossKey LossType.BCE) = BRItem.lossValue c7b.loss) ∧
    (∀ v, lookupA c7b.metrics BatchMetricType.ACCURACY = some v →
      c7b.getItem (BRKey.batchMetricKey BatchMetricType.ACCURACY) =
        BRItem.metricValue v) :=
  c7_batch_result_getitem c7b LossType.BCE BatchMetricType.ACCURACY

/-- C8 counterexample: with output retention disabled, the `BatchResult`
built by `new_batch` still holds the `y` and `y_pred` mappings (here a
non-empty mapping), contradicting the claim that they are retained only
when output retention is enabled. -/
theorem c8_counterexample :
    c8state.keep_output = false ∧
    (Logger.new_batch c8state (exLoss 1) exY exY 4).2 = Except.ok c8br ∧
    c8br.y = exY ∧ c8br.y_pred = exY ∧ exY ≠ [] := by
  exact ⟨rfl, rfl, rfl, rfl, by decide⟩

/-- C8 (amended): every `BatchResult` returned by a successful `new_batch`
call holds the passed `y` and `y_pred` mappings, regardless of the output
retention flag (which instead controls whether `_save_output` runs). -/
theorem c8_outputs_always_retained (s : Logger) (loss : LossResult)
    (y y_pred : YMap) (batch_size : Int) (s' : Logger) (br : BatchResult)
    (h : Logger.new_batch s loss y y_pred batch_size = (s', Except.ok br)) :
    br.y = y ∧ br.y_pred = y_pred := by
  unfold Logger.new_batch at h
  cases hk : s.keep_output with
  | true => simp [hk, Logger.save_output] at h
  | false =>
    simp only [hk, if_false] at h
    cases h
    exact ⟨rfl, rfl⟩

/-- Witness for C8 (amended) on the concrete C8 run. -/
theorem c8_outputs_always_retained_witness : c8br.y = exY ∧ c8br.y_pred = exY :=
  c8_outputs_always_retained c8state (exLoss 1) exY exY 4
    (Logger.new_batch c8state (exLoss 1) exY exY 4).1 c8br rfl

/-- C9: on the base logger with output retention enabled, every `new_batch`
call fails with `NotImplementedError` and leaves the state (in particular
the in-progress buffer) unchanged. -/
theorem c9_save_output_not_implemented (s : Logger) (loss : LossResult)
    (y y_pred : YMap) (batch_size : Int) (h : s.keep_output = true) :
    Logger.new_batch s loss y y_pred batch_size =
      (s, Except.error PyError.notImplementedError) := by
  simp [Logger.new_batch, Logger.save_output, h]

/-- Witness for C9 on a concrete logger with retention enabled. -/
theorem c9_save_output_not_implemented_witness :
    (Logger.init [] [] 0 true).keep_output = true ∧
    Logger.new_batch (Logger.init [] [] 0 true) (exLoss 1) exY exY 4 =
      (Logger.init [] [] 0 true, Except.error PyError.notImplementedError) :=
  ⟨rfl, c9_save_output_not_implemented (Logger.init [] [] 0 true)
    (exLoss 1) exY exY 4 rfl⟩

/-- Helper for C10: on any `DataType` subtype, `x < x` is true and
`x <= x` is false, because the two comparison bodies are swapped. -/
theorem DataType.lt_le_self {α : Type} (value : α → String) (x : α) :
    DataType.lt value x x = true ∧ DataType.le value x x = false :=
  ⟨decide_eq_true (le_refl (value x)), decide_eq_false (lt_irrefl (value x))⟩

/-- C10: for every member `x` of each `DataType` subtype enumeration,
`x < x` evaluates to true (since `__lt__` uses `<=` on the values) and
`x <= x` evaluates to false (since `__le__` uses `<`), so `<` is not a
strict order and `<=` is not reflexive. -/
theorem c10_datatype_comparisons_swapped :
    (∀ x : SignalType, DataType.lt SignalType.value x x = true ∧
      DataType.le SignalType.value x x = false) ∧
    (∀ x : LabelType, DataType.lt LabelType.value x x = true ∧
      DataType.le LabelType.value x x = false) ∧
    (∀ x : NonSignalDataType, DataType.lt NonSignalDataType.value x x = true ∧
      DataType.le NonSignalDataType.value x x = false) ∧
    (∀ x : ModelDataType, DataType.lt ModelDataType.value x x = true ∧
      DataType.le ModelDataType.value x x = false) :=
  ⟨fun x => DataType.lt_le_self SignalType.value x,
   fun x => DataType.lt_le_self LabelType.value x,
   fun x => DataType.lt_le_self NonSignalDataType.value x,
   fun x => DataType.lt_le_self ModelDataType.value x⟩

/-! ### Setup lemmas for whole-epoch runs -/

theorem run_setup {s₀ : Logger} {train validation : Bool} {n : Int}
    {inputs : List BatchInput} {s₂ : Logger} (htv : train ≠ validation)
    (hrun : runBatches (Logger.start_epoch s₀ train validation n).1 inputs =
      (s₂, Except.ok ())) :
    s₂.batch_metrics = s₀.batch_metrics ∧
    s₂.epoch_metrics = s₀.epoch_metrics ∧
    s₂.current_epoch_batch_results =
      inputs.map (newBatchResult s₀.batch_metrics) ∧
    s₂.mode = (if train then "training" else "validation") ∧
    s₂.current_epoch = n := by
  have hs1 : (Logger.start_epoch s₀ train validation n).1 =
      { s₀ with current_epoch_batch_results := []
                mode := if train then "training" else "validation"
                current_epoch := n } := by
    simp [Logger.start_epoch, htv]
  rw [hs1] at hrun
  have hs2 := runBatches_ok hrun
  rw [hs2]
  refine ⟨rfl, rfl, ?_, rfl, rfl⟩
  simp

theorem collect_init_spec (bms : List BatchMetric)
    (hnd : (bms.map (fun m => m.type)).Nodup) (inputs : List BatchInput) :
    ∃ d', collectBatches bms (inputs.map (newBatchResult bms)) []
        (pyDict (bms.map fun m => (m.type, ([] : List Rat)))) 0 =
        Except.ok (inputs.map (fun i => i.loss), d',
          (inputs.map (fun i => i.batch_size)).sum) ∧
      ∀ m ∈ bms, lookupA d' m.type =
        some (inputs.map (fun i => m.call i.y i.y_pred)) := by
  have hb : ∀ b ∈ inputs.map (newBatchResult bms), ∀ m ∈ bms,
      containsKey b.metrics m.type = true := by
    intro b hbm m hm
    rcases List.mem_map.mp hbm with ⟨i, hi, rfl⟩
    exact (containsKey_pyDict _ _).mpr
      ⟨(m.type, m.call i.y i.y_pred), List.mem_map.mpr ⟨m, hm, rfl⟩, rfl⟩
  have hd : ∀ m ∈ bms,
      lookupA (pyDict (bms.map fun m => (m.type, ([] : List Rat)))) m.type =
        some ((fun _ => ([] : List Rat)) m) := by
    intro m hm
    exact lookupA_pyDict_const
      (by intro p hp; rcases List.mem_map.mp hp with ⟨m', _, rfl⟩; rfl)
      ((containsKey_pyDict _ _).mpr
        ⟨(m.type, []), List.mem_map.mpr ⟨m, hm, rfl⟩, rfl⟩)
  rcases collectBatches_spec bms hnd (inputs.map (newBatchResult bms)) hb []
      (pyDict (bms.map fun m => (m.type, ([] : List Rat)))) 0
      (fun _ => ([] : List Rat)) hd with ⟨d', hEq, hvals⟩
  have hkeysnd : ∀ i : BatchInput,
      ((bms.map fun m' => (m'.type, m'.call i.y i.y_pred)).map Prod.fst).Nodup := by
    intro i
    have : (bms.map fun m' => (m'.type, m'.call i.y i.y_pred)).map Prod.fst =
        bms.map fun m' => m'.type := by
      rw [List.map_map]
      rfl
    rw [this]
    exact hnd
  refine ⟨d', ?_, ?_⟩
  · rw [hEq]
    have h1 : (inputs.map (newBatchResult bms)).map (fun b => b.loss) =
        inputs.map (fun i => i.loss) := by
      rw [List.map_map]
      rfl
    have h2 : ((inputs.map (newBatchResult bms)).map (fun b => b.batch_size)).sum =
        (inputs.map (fun i => i.batch_size)).sum := by
      rw [List.map_map]
      rfl
    rw [h1, h2]
    simp
  · intro m hm
    rw [hvals m hm]
    have h3 : (inputs.map (newBatchResult bms)).map
        (fun b => (lookupA b.metrics m.type).getD 0) =
        inputs.map (fun i => m.call i.y i.y_pred) := by
      rw [List.map_map]
      refine List.map_congr_left ?_
      intro i _
      have hl : lookupA (newBatchResult bms i).metrics m.type =
          some (m.call i.y i.y_pred) :=
        lookupA_pyDict_nodup (hkeysnd i)
          (List.mem_map.mpr ⟨m, hm, rfl⟩)
      simp [Function.comp, hl]
    rw [h3]
    simp

/-- C1: within one open epoch with `k` buffered `new_batch` calls, the
`EpochResult` that `finish_epoch` returns has `batch_losses` equal to the
length-`k` loss sequence in arrival order, `epoch_size` equal to the sum of
the batch sizes, and, for every registered batch metric kind, the length-`k`
sequence of that metric's per-batch values in arrival order. -/
theorem c1_epoch_accumulation (s₀ : Logger) (train validation : Bool) (n : Int)
    (inputs : List BatchInput) (s₂ : Logger) (er : EpochResult)
    (htv : train ≠ validation)
    (hnd : (s₀.batch_metrics.map (fun m => m.type)).Nodup)
    (hrun : runBatches (Logger.start_epoch s₀ train validation n).1 inputs =
      (s₂, Except.ok ()))
    (hfin : (Logger.finish_epoch s₂).2 = Except.ok er) :
    er.batch_losses = inputs.map (fun i => i.loss) ∧
    er.epoch_size = (inputs.map (fun i => i.batch_size)).sum ∧
    ∀ m ∈ s₀.batch_metrics, lookupA er.batch_metrics m.type =
      some (inputs.map (fun i => m.call i.y i.y_pred)) := by
  obtain ⟨hbm, hem, hbuf, _, _⟩ := run_setup htv hrun
  rcases collect_init_spec s₀.batch_metrics hnd inputs with ⟨d', hEqc, hvals⟩
  unfold Logger.finish_epoch at hfin
  rw [hbm, hem, hbuf, hEqc] at hfin
  cases hcm : computeEpochMetrics (inputs.map (newBatchResult s₀.batch_metrics))
      s₀.epoch_metrics [] with
  | error e => rw [hcm] at hfin; simp at hfin
  | ok emets =>
    rw [hcm] at hfin
    have her : er = { batch_losses := inputs.map (fun i => i.loss)
                      batch_metrics := d'
                      epoch_metrics := emets
                      epoch_size := (inputs.map (fun i => i.batch_size)).sum } := by
      by_cases h1 : s₂.mode = "training"
      · simp [h1] at hfin
        exact hfin.symm
      · by_cases h2 : s₂.mode = "validation"
        · simp only [h1, h2, if_false, if_true] at hfin
          simp at hfin
          exact hfin.symm
        · simp [h1, h2] at hfin
    subst her
    exact ⟨rfl, rfl, hvals⟩

/-- Witness for C1: the concrete two-batch training epoch. -/
theorem c1_epoch_accumulation_witness :
    c1er.batch_losses = c1inputs.map (fun i => i.loss) ∧
    c1er.epoch_size = (c1inputs.map (fun i => i.batch_size)).sum ∧
    ∀ m ∈ c1s0.batch_metrics, lookupA c1er.batch_metrics m.type =
      some (c1inputs.map (fun i => m.call i.y i.y_pred)) :=
  c1_epoch_accumulation c1s0 true false 1 c1inputs c1s2 c1er
    (by decide) (by decide) rfl rfl

/-- C4 counterexample: with zero buffered batches, an epoch metric whose
required PPV batch metric no registered batch metric produces does NOT make
`finish_epoch` fail — the dependency check loops over the (empty) buffer and
passes vacuously, so `finish_epoch` succeeds. -/
theorem c4_counterexample :
    c4state.epoch_metrics = [exEpochNeedsPPV] ∧
    exEpochNeedsPPV.required_batch_metrics = [BatchMetricType.PPV] ∧
    c4state.batch_metrics = [] ∧
    c4state.current_epoch_batch_results = [] ∧
    (Logger.finish_epoch c4state).2 =
      Except.ok { batch_losses := []
                  batch_metrics := []
                  epoch_metrics := [(EpochMetricType.AUROC, 0)]
                  epoch_size := 0 } :=
  ⟨rfl, rfl, rfl, rfl, rfl⟩

/-- C4 (amended): with at least one buffered batch in the open epoch, a
registered epoch metric requiring a batch-metric kind that no registered
batch metric produces makes `finish_epoch` fail with the missing-dependency
error, leaving the state unchanged. (With zero buffered batches the check
passes vacuously.) -/
theorem c4_missing_dependency (s₀ : Logger) (train validation : Bool) (n : Int)
    (inputs : List BatchInput) (s₂ : Logger)
    (htv : train ≠ validation) (hne : inputs ≠ [])
    (hnd : (s₀.batch_metrics.map (fun m => m.type)).Nodup)
    (hrun : runBatches (Logger.start_epoch s₀ train validation n).1 inputs =
      (s₂, Except.ok ()))
    (hmiss : ∃ em ∈ s₀.epoch_metrics, ∃ t ∈ em.required_batch_metrics,
      ∀ m ∈ s₀.batch_metrics, m.type ≠ t) :
    Logger.finish_epoch s₂ = (s₂, Except.error PyError.indexError) := by
  obtain ⟨hbm, hem, hbuf, _, _⟩ := run_setup htv hrun
  rcases collect_init_spec s₀.batch_metrics hnd inputs with ⟨d', hEqc, _⟩
  have hfail : computeEpochMetrics (inputs.map (newBatchResult s₀.batch_metrics))
      s₀.epoch_metrics [] = Except.error PyError.indexError := by
    apply computeEpochMetrics_fails
    rcases hmiss with ⟨em, hem', t, ht, hnone⟩
    refine ⟨em, hem', PyError.indexError, ?_⟩
    unfold EpochMetric.call
    rw [if_neg ?hcond]
    case hcond =>
      intro hall
      rw [List.all_eq_true] at hall
      have h1 := hall t ht
      rw [List.all_eq_true] at h1
      obtain ⟨i, hi⟩ := List.exists_mem_of_ne_nil inputs hne
      have h2 := h1 (newBatchResult s₀.batch_metrics i)
        (List.mem_map.mpr ⟨i, hi, rfl⟩)
      have h3 : containsKey (newBatchResult s₀.batch_metrics i).metrics t = true := by
        simpa using h2
      rcases (containsKey_pyDict _ _).mp h3 with ⟨p, hp, hpt⟩
      rcases List.mem_map.mp hp with ⟨m, hm, rfl⟩
      exact hnone m hm hpt
  unfold Logger.finish_epoch
  rw [hbm, hem, hbuf, hEqc, hfail]

/-- Witness for C4 (amended): the concrete one-batch run with an epoch
metric requiring the unproduced PPV kind. -/
theorem c4_missing_dependency_witness :
    Logger.finish_epoch c4ws2 = (c4ws2, Except.error PyError.indexError) :=
  c4_missing_dependency c4ws0 true false 0 c4winputs c4ws2
    (by decide) (by decide) (by decide) rfl
    ⟨exEpochNeedsPPV, List.mem_singleton.mpr rfl,
     BatchMetricType.PPV, List.mem_singleton.mpr rfl,
     fun m hm => absurd hm (List.not_mem_nil m)⟩

/-- C5 counterexample: a logger whose mode is invalid (neither training nor
validation) but whose metric phase fails first — `finish_epoch` raises the
missing-dependency error, not the invalid-state error, so the "exactly
when" (iff) part of the claim is false. -/
theorem c5_counterexample :
    c5state.mode ≠ "training" ∧ c5state.mode ≠ "validation" ∧
    (Logger.finish_epoch c5state).2 = Except.error PyError.indexError ∧
    (Logger.finish_epoch c5state).2 ≠ Except.error PyError.runtimeError := by
  refine ⟨by decide, by decide, rfl, ?_⟩
  intro h
  have h3 : (Logger.finish_epoch c5state).2 = Except.error PyError.indexError := rfl
  rw [h3] at h
  exact absurd (Except.error.inj h) (by decide)

/-- C5 (amended): `finish_epoch` raises the invalid-state error only when
the mode is invalid (so the branch is unreachable after a successful
`start_epoch`); when the accumulation and epoch-metric phases succeed, an
invalid mode raises the invalid-state error with the state unchanged, while
a valid mode stores the buffer and the `EpochResult` under `current_epoch`
in that mode's dictionaries and increments that mode's epoch-run counter. -/
theorem c5_invalid_state_dispatch (s : Logger) :
    ((Logger.finish_epoch s).2 = Except.error PyError.runtimeError →
      s.mode ≠ "training" ∧ s.mode ≠ "validation") ∧
    (∀ losses d size emets,
      collectBatches s.batch_metrics s.current_epoch_batch_results []
        (pyDict (s.batch_metrics.map fun m => (m.type, ([] : List Rat)))) 0 =
        Except.ok (losses, d, size) →
      computeEpochMetrics s.current_epoch_batch_results s.epoch_metrics [] =
        Except.ok emets →
      ((s.mode ≠ "training" → s.mode ≠ "validation" →
        Logger.finish_epoch s = (s, Except.error PyError.runtimeError)) ∧
       (s.mode = "training" →
        Logger.finish_epoch s =
          ({ s with
              batch_train_results := pyInsert s.batch_train_results
                s.current_epoch s.current_epoch_batch_results
              epoch_train_results := pyInsert s.epoch_train_results
                s.current_epoch
                { batch_losses := losses, batch_metrics := d,
                  epoch_metrics := emets, epoch_size := size }
              train_epochs_run := s.train_epochs_run + 1 },
            Except.ok { batch_losses := losses, batch_metrics := d,
                        epoch_metrics := emets, epoch_size := size })) ∧
       (s.mode = "validation" →
        Logger.finish_epoch s =
          ({ s with
              batch_validation_results := pyInsert s.batch_validation_results
                s.current_epoch s.current_epoch_batch_results
              epoch_validation_results := pyInsert s.epoch_validation_results
                s.current_epoch
                { batch_losses := losses, batch_metrics := d,
                  epoch_metrics := emets, epoch_size := size }
              validation_epochs_run := s.validation_epochs_run + 1 },
            Except.ok { batch_losses := losses, batch_metrics := d,
                        epoch_metrics := emets, epoch_size := size })))) := by
  constructor
  · intro h
    cases hc : collectBatches s.batch_metrics s.current_epoch_batch_results []
        (pyDict (s.batch_metrics.map fun m => (m.type, ([] : List Rat)))) 0 with
    | error e =>
      unfold Logger.finish_epoch at h
      rw [hc] at h
      simp at h
      exact absurd (h ▸ collectBatches_error_kind hc) (by decide)
    | ok triple =>
      obtain ⟨losses, d, size⟩ := triple
      cases hm : computeEpochMetrics s.current_epoch_batch_results
          s.epoch_metrics [] with
      | error e =>
        unfold Logger.finish_epoch at h
        rw [hc, hm] at h
        simp at h
        exact absurd (h ▸ computeEpochMetrics_error_kind hm) (by decide)
      | ok emets =>
        unfold Logger.finish_epoch at h
        rw [hc, hm] at h
        by_cases h1 : s.mode = "training"
        · simp [h1] at h
        · by_cases h2 : s.mode = "validation"
          · simp [h1, h2] at h
          · exact ⟨h1, h2⟩
  · intro losses d size emets hc hm
    refine ⟨?_, ?_, ?_⟩
    · intro h1 h2
      unfold Logger.finish_epoch
      rw [hc, hm]
      simp [h1, h2]
    · intro h1
      unfold Logger.finish_epoch
      rw [hc, hm]
      simp [h1]
    · intro h2
      by_cases h1 : s.mode = "training"
      · rw [h1] at h2
        exact absurd h2 (by decide)
      · unfold Logger.finish_epoch
        rw [hc, hm]
        simp [h1, h2]

/-- Witness for C5 (amended) on a concrete freshly started validation
epoch with no metrics and no batches. -/
theorem c5_invalid_state_dispatch_witness :
    Logger.finish_epoch c5w =
      ({ c5w with
          batch_validation_results := pyInsert c5w.batch_validation_results
            c5w.current_epoch c5w.current_epoch_batch_results
          epoch_validation_results := pyInsert c5w.epoch_validation_results
            c5w.current_epoch
            { batch_losses := [], batch_metrics := [],
              epoch_metrics := [], epoch_size := 0 }
          validation_epochs_run := c5w.validation_epochs_run + 1 },
        Except.ok { batch_losses := [], batch_metrics := [],
                    epoch_metrics := [], epoch_size := 0 }) :=
  (((c5_invalid_state_dispatch c5w).2 [] [] 0 [] rfl rfl).2.2) rfl

/-- C2: round-trip through `finish_training`'s transposition — for every
stored training (resp. validation) epoch, the metric-type-major `FitResult`
dictionaries give back exactly the per-epoch batch-loss sequence, the
per-batch metric sequences, and the epoch-metric scalars of the
`EpochResult` previously produced for that epoch. -/
theorem c2_round_trip (s : Logger) (model : Model)
    (hbn : (s.batch_metrics.map (fun m => m.type)).Nodup)
    (hen : (s.epoch_metrics.map (fun m => m.type)).Nodup)
    (hkT : (s.epoch_train_results.map Prod.fst).Nodup)
    (hkV : (s.epoch_validation_results.map Prod.fst).Nodup)
    (hwfT : ∀ p ∈ s.epoch_train_results,
      (∀ m ∈ s.batch_metrics, containsKey p.2.batch_metrics m.type = true) ∧
      (∀ m ∈ s.epoch_metrics, containsKey p.2.epoch_metrics m.type = true))
    (hwfV : ∀ p ∈ s.epoch_validation_results,
      (∀ m ∈ s.batch_metrics, containsKey p.2.batch_metrics m.type = true) ∧
      (∀ m ∈ s.epoch_metrics, containsKey p.2.epoch_metrics m.type = true)) :
    ∃ fr, (Logger.finish_training s model).2 = Except.ok fr ∧
      (∀ p ∈ s.epoch_train_results,
        lookupA fr.batch_train_losses p.1 = some p.2.batch_losses ∧
        (∀ m ∈ s.batch_metrics, lookup2 fr.batch_train_metrics m.type p.1 =
          lookupA p.2.batch_metrics m.type) ∧
        (∀ m ∈ s.epoch_metrics, lookup2 fr.epoch_train_metrics m.type p.1 =
          lookupA p.2.epoch_metrics m.type)) ∧
      (∀ p ∈ s.epoch_validation_results,
        lookupA fr.batch_validation_losses p.1 = some p.2.batch_losses ∧
        (∀ m ∈ s.batch_metrics, lookup2 fr.batch_validation_metrics m.type p.1 =
          lookupA p.2.batch_metrics m.type) ∧
        (∀ m ∈ s.epoch_metrics, lookup2 fr.epoch_validation_metrics m.type p.1 =
          lookupA p.2.epoch_metrics m.type)) := by
  have hconv : ∀ (l : List (Int × EpochResult)),
      (∀ p ∈ l,
        (∀ m ∈ s.batch_metrics, containsKey p.2.batch_metrics m.type = true) ∧
        (∀ m ∈ s.epoch_metrics, containsKey p.2.epoch_metrics m.type = true)) →
      ∀ p ∈ l,
        (∀ t ∈ s.batch_metrics.map (fun m => m.type),
          containsKey p.2.batch_metrics t = true) ∧
        (∀ t ∈ s.epoch_metrics.map (fun m => m.type),
          containsKey p.2.epoch_metrics t = true) := by
    intro l hwf p hp
    constructor
    · intro t ht
      rcases List.mem_map.mp ht with ⟨m, hm, rfl⟩
      exact (hwf p hp).1 m hm
    · intro t ht
      rcases List.mem_map.mp ht with ⟨m, hm, rfl⟩
      exact (hwf p hp).2 m hm
  have hbD : ∀ t ∈ s.batch_metrics.map (fun m => m.type),
      containsKey (pyDict (s.batch_metrics.map fun m =>
        (m.type, ([] : List (Int × List Rat))))) t = true := by
    intro t ht
    rcases List.mem_map.mp ht with ⟨m, hm, rfl⟩
    exact (containsKey_pyDict _ _).mpr
      ⟨(m.type, []), List.mem_map.mpr ⟨m, hm, rfl⟩, rfl⟩
  have heD : ∀ t ∈ s.epoch_metrics.map (fun m => m.type),
      containsKey (pyDict (s.epoch_metrics.map fun m =>
        (m.type, ([] : List (Int × Rat))))) t = true := by
    intro t ht
    rcases List.mem_map.mp ht with ⟨m, hm, rfl⟩
    exact (containsKey_pyDict _ _).mpr
      ⟨(m.type, []), List.mem_map.mpr ⟨m, hm, rfl⟩, rfl⟩
  rcases phaseFold_spec (s.batch_metrics.map fun m => m.type)
      (s.epoch_metrics.map fun m => m.type) hbn hen s.epoch_train_results hkT
      (hconv _ hwfT) []
      (pyDict (s.batch_metrics.map fun m => (m.type, ([] : List (Int × List Rat)))))
      (pyDict (s.epoch_metrics.map fun m => (m.type, ([] : List (Int × Rat)))))
      hbD heD with ⟨lT, bT, eT, hEqT, hmainT, _⟩
  rcases phaseFold_spec (s.batch_metrics.map fun m => m.type)
      (s.epoch_metrics.map fun m => m.type) hbn hen s.epoch_validation_results hkV
      (hconv _ hwfV) []
      (pyDict (s.batch_metrics.map fun m => (m.type, ([] : List (Int × List Rat)))))
      (pyDict (s.epoch_metrics.map fun m => (m.type, ([] : List (Int × Rat)))))
      hbD heD with ⟨lV, bV, eV, hEqV, hmainV, _⟩
  refine ⟨{ batch_train_losses := lT
            batch_validation_losses := lV
            batch_train_metrics := bT
            batch_validation_metrics := bV
            epoch_train_metrics := eT
            epoch_validation_metrics := eV
            num_epochs := s.current_epoch
            model := model }, ?_, ?_, ?_⟩
  · simp only [Logger.finish_training, hEqT, hEqV]
  · intro p hp
    rcases hmainT p hp with ⟨h1, h2, h3⟩
    exact ⟨h1,
      fun m hm => h2 m.type (List.mem_map.mpr ⟨m, hm, rfl⟩),
      fun m hm => h3 m.type (List.mem_map.mpr ⟨m, hm, rfl⟩)⟩
  · intro p hp
    rcases hmainV p hp with ⟨h1, h2, h3⟩
    exact ⟨h1,
      fun m hm => h2 m.type (List.mem_map.mpr ⟨m, hm, rfl⟩),
      fun m hm => h3 m.type (List.mem_map.mpr ⟨m, hm, rfl⟩)⟩

/-- Witness for C2: a logger with one stored training epoch and one stored
validation epoch. -/
theorem c2_round_trip_witness :
    ∃ fr, (Logger.finish_training c2state { id := 1 }).2 = Except.ok fr ∧
      (∀ p ∈ c2state.epoch_train_results,
        lookupA fr.batch_train_losses p.1 = some p.2.batch_losses ∧
        (∀ m ∈ c2state.batch_metrics, lookup2 fr.batch_train_metrics m.type p.1 =
          lookupA p.2.batch_metrics m.type) ∧
        (∀ m ∈ c2state.epoch_metrics, lookup2 fr.epoch_train_metrics m.type p.1 =
          lookupA p.2.epoch_metrics m.type)) ∧
      (∀ p ∈ c2state.epoch_validation_results,
        lookupA fr.batch_validation_losses p.1 = some p.2.batch_losses ∧
        (∀ m ∈ c2state.batch_metrics, lookup2 fr.batch_validation_metrics m.type p.1 =
          lookupA p.2.batch_metrics m.type) ∧
        (∀ m ∈ c2state.epoch_metrics, lookup2 fr.epoch_validation_metrics m.type p.1 =
          lookupA p.2.epoch_metrics m.type)) :=
  c2_round_trip c2state { id := 1 } (by decide) (by decide) (by decide) (by decide)
    (by decide) (by decide)
